import Mathlib

/-!
Verification of the particle simulation core of the hand-tracking-particles
repository (files MathUtils.js, ParticleSystem.js, ParticleEffects.js and the
hand-data producer HandTracker.js).

Embedding conventions:
* JS numbers are modelled as real numbers (`ℝ`); the lifetime counter, which is
  only ever set to integer configuration values, decremented by 1, set to 30, or
  incremented by 5, is modelled as `ℤ` (the spec types it `i32`).
* The source keeps parallel arrays (`particles` — a flat length-3N position
  buffer, `velocities`, `particleColors` — a flat length-3N RGB buffer,
  `lifetimes`, `active`), all indexed by the slot index.  We model the slot
  data at index i as one record `Slot` and the pool as a single `List Slot`;
  `particles[3*i..3*i+2]` corresponds to `(slots.get i).pos` and
  `particleColors[3*i..3*i+2]` to `(slots.get i).color`.
* Every call of `Math.random()` is modelled as one explicit oracle value.
  `Math.random()` always returns a value in `[0,1)`; where a statement needs
  this fact it carries it as a hypothesis.
* The palette entries are hex strings converted by `THREE.Color` to normalized
  RGB triples; we model each palette entry directly as its RGB triple.
* `List.set` is a no-op out of range.  In the source the only write whose index
  could leave the arrays is the saturated-overwrite index
  `Math.floor(Math.random() * maxParticles)`, which is `< maxParticles`
  because `Math.random() < 1`.
-/

namespace HandParticles

/-- A 3-component vector of JS numbers (used for positions, velocities and
RGB colors). -/
structure Vec3 where
  x : ℝ
  y : ℝ
  z : ℝ

/-- A 2-component vector (the per-hand velocity estimate `hand.velocity`). -/
structure Vec2 where
  x : ℝ
  y : ℝ

/-- One finger-tip point as produced by HandTracker.processResults
(`{ x, y, z }`). -/
structure Tip where
  x : ℝ
  y : ℝ
  z : ℝ

/-- One hand of the hand-landmark snapshot: the fields of the HandTracker
output that ParticleSystem reads (`tips`, `fingerExtension`, and the optional
`velocity`, which HandTracker does not actually set, hence `Option`). -/
structure Hand where
  tips : List Tip
  fingerExtension : List Bool
  velocity : Option Vec2

/-- The `Config.particles` option record (`this.options` of ParticleSystem). -/
structure Options where
  count : ℕ
  size : ℝ
  maxSpeed : ℝ
  lifetime : ℤ
  emissionRate : ℤ
  gravity : ℝ
  friction : ℝ
  bounceStrength : ℝ
  interactionRadius : ℝ
  colors : List Vec3

/-- The per-slot data of the pool's parallel arrays, gathered in one record:
`particles[3i..3i+2]`, `velocities[i]`, `particleColors[3i..3i+2]`,
`lifetimes[i]`, `active[i]`. -/
structure Slot where
  pos : Vec3
  vel : Vec3
  color : Vec3
  lifetime : ℤ
  active : Bool

/-- Default slot value used only as the out-of-range fallback of `List.getD`. -/
def slotDefault : Slot :=
  { pos := ⟨0, 0, 0⟩, vel := ⟨0, 0, 0⟩, color := ⟨0, 0, 0⟩, lifetime := 0, active := false }

/-- The mutable state of a `ParticleSystem` instance (the fields the
simulation reads and writes; the Three.js scene objects are rendering-only). -/
structure PSState where
  options : Options
  maxParticles : ℕ
  slots : List Slot
  fingerPositions : List Hand
  particleCount : ℕ

/-- `getRandomColor`: `this.options.colors[Math.floor(Math.random() * this.options.colors.length)]`,
with the palette entry already converted to its RGB triple.  `r` is the
`Math.random()` value. -/
noncomputable def getRandomColor (opts : Options) (r : ℝ) : Vec3 :=
  opts.colors.getD (Nat.floor (r * opts.colors.length)) ⟨0, 0, 0⟩

/-- The slot state established by `init` for every index: position `(0,0,-1000)`
(depth at the offscreen sentinel), zero velocity, zero lifetime, inactive, and
a random palette color. -/
def initSlot (color : Vec3) : Slot :=
  { pos := ⟨0, 0, -1000⟩, vel := ⟨0, 0, 0⟩, color := color, lifetime := 0,
    active := false }

/-- The state after the constructor plus `init(scene)`: `maxParticles`
is `options.count`, all `maxParticles` slots are inactive at the sentinel
depth with a random palette color (`colorR i` is the `Math.random()` value of
slot i's color draw), no hand data, `particleCount = 0`. -/
noncomputable def init (opts : Options) (colorR : ℕ → ℝ) : PSState :=
  { options := opts
    maxParticles := opts.count
    slots := (List.range opts.count).map (fun i => initSlot (getRandomColor opts (colorR i)))
    fingerPositions := []
    particleCount := 0 }

/-- `MathUtils.randomInt(min, max)`: `Math.floor(Math.random() * (max - min + 1)) + min`,
with `r` the `Math.random()` value. -/
noncomputable def randomInt (min max : ℤ) (r : ℝ) : ℤ :=
  Int.floor (r * ((max : ℝ) - (min : ℝ) + 1)) + min

/-- The planar tip-to-particle distance of `handleFingerInteraction`:
`Math.sqrt(dx*dx + dy*dy)` with `dx = tip.x - px`, `dy = tip.y - py`
(z is ignored). -/
noncomputable def tipDistance (tip : Tip) (pos : Vec3) : ℝ :=
  Real.sqrt ((tip.x - pos.x) * (tip.x - pos.x) + (tip.y - pos.y) * (tip.y - pos.y))

/-- The 10%-of-hand-velocity term: `vx = 0; if (hand.velocity) vx = hand.velocity.x * 0.1`. -/
def handVelX (hv : Option Vec2) : ℝ :=
  match hv with
  | some v => v.x * 0.1
  | none => 0

/-- The 10%-of-hand-velocity term on y. -/
def handVelY (hv : Option Vec2) : ℝ :=
  match hv with
  | some v => v.y * 0.1
  | none => 0

/-- The body of the inner `hand.tips.forEach` loop of
`handleFingerInteraction`, acting on the accumulating per-slot state
`(velocity, color, lifetime)`;  `pos` is the particle position read once at
the top of the function.  Note the source iterates over every tip of the hand
and never consults `hand.fingerExtension` here. -/
noncomputable def interactTip (opts : Options) (hv : Option Vec2) (tip : Tip)
    (pos : Vec3) (st : Vec3 × Vec3 × ℤ) : Vec3 × Vec3 × ℤ :=
  let dx := tip.x - pos.x
  let dy := tip.y - pos.y
  let distance := tipDistance tip pos
  if distance < opts.interactionRadius then
    let pushStrength := 0.5 * (1 - distance / opts.interactionRadius)
    let vel := st.1
    let col := st.2.1
    let lt := st.2.2
    (⟨vel.x + ((dx / distance) * pushStrength + handVelX hv),
      vel.y + ((dy / distance) * pushStrength + handVelY hv),
      vel.z⟩,
     ⟨min 1 (col.x + 0.05), col.y, col.z⟩,
     lt + 5)
  else st

/-- The per-hand loop of `handleFingerInteraction`. -/
noncomputable def interactHand (opts : Options) (hand : Hand) (pos : Vec3)
    (st : Vec3 × Vec3 × ℤ) : Vec3 × Vec3 × ℤ :=
  hand.tips.foldl (fun st tip => interactTip opts hand.velocity tip pos st) st

/-- `handleFingerInteraction(index)` as a function of the slot data it touches:
given the hand list, the particle position (read once into `px, py, pz`), and
the current `(velocity, color, lifetime)` of the slot, it folds the per-tip
update over all hands and all tips.  The source's early return on an empty
hand list coincides with the fold over `[]`. -/
noncomputable def handleFingerInteraction (opts : Options) (hands : List Hand)
    (pos : Vec3) (st : Vec3 × Vec3 × ℤ) : Vec3 × Vec3 × ℤ :=
  hands.foldl (fun st hand => interactHand opts hand pos st) st

/-- The body of the per-slot loop of `update` (lines: decrement lifetime,
deactivate at `<= 0` moving depth to the sentinel, else gravity on `vel.y`,
friction on all three velocity components, position integration, then
`handleFingerInteraction`). -/
noncomputable def updateSlot (opts : Options) (hands : List Hand) (sl : Slot) : Slot :=
  if sl.active = false then sl
  else
    let lt := sl.lifetime - 1
    if lt ≤ 0 then
      { sl with active := false, lifetime := lt,
                pos := ⟨sl.pos.x, sl.pos.y, -1000⟩ }
    else
      let v1 : Vec3 := ⟨sl.vel.x, sl.vel.y + opts.gravity, sl.vel.z⟩
      let v2 : Vec3 := ⟨v1.x * opts.friction, v1.y * opts.friction, v1.z * opts.friction⟩
      let p2 : Vec3 := ⟨sl.pos.x + v2.x, sl.pos.y + v2.y, sl.pos.z + v2.z⟩
      let res := handleFingerInteraction opts hands p2 (v2, sl.color, lt)
      { pos := p2, vel := res.1, color := res.2.1, lifetime := res.2.2, active := true }

/-- The full per-slot pass of `update` over all `maxParticles` slots (each
loop iteration touches only the arrays' entries at its own index, so the pass
is a pointwise map). -/
noncomputable def physicsPass (s : PSState) : PSState :=
  { s with slots := s.slots.map (updateSlot s.options s.fingerPositions) }

/-- The oracle values consumed by one `emitParticle` call, in source order:
the saturated-overwrite slot draw, the angle draw, the speed draw, the
z-velocity draw, and the color draw. -/
structure EmitRand where
  slotR : ℝ
  angleR : ℝ
  speedR : ℝ
  zR : ℝ
  colorR : ℝ

/-- The linear scan of `emitParticle` for the first inactive slot
(`for (i = 0; i < maxParticles; i++) if (!active[i]) ...`). -/
def firstInactive (slots : List Slot) : Option ℕ :=
  slots.findIdx? (fun sl => !sl.active)

/-- The slot index chosen by `emitParticle`: the first inactive slot of the
linear scan, or `Math.floor(Math.random() * maxParticles)` when the scan left
`particleIndex === -1` (every slot active). -/
noncomputable def emitIndex (s : PSState) (slotR : ℝ) : ℕ :=
  match firstInactive s.slots with
  | some i => i
  | none => Nat.floor (slotR * s.maxParticles)

/-- The slot contents written by `emitParticle(x, y, z)`: active, position
`(x,y,z)`, velocity `(cos(angle)*speed, sin(angle)*speed, (rand-0.5)*0.2)`
with `angle = rand*2π` and `speed = rand*maxSpeed`, the configured lifetime,
and a random palette color. -/
noncomputable def emitSlot (opts : Options) (x y z : ℝ) (ρ : EmitRand) : Slot :=
  let angle := ρ.angleR * Real.pi * 2
  let speed := ρ.speedR * opts.maxSpeed
  { active := true
    pos := ⟨x, y, z⟩
    vel := ⟨Real.cos angle * speed, Real.sin angle * speed, (ρ.zR - 0.5) * 0.2⟩
    lifetime := opts.lifetime
    color := getRandomColor opts ρ.colorR }

/-- `emitParticle(x, y, z)`: write `emitSlot` at `emitIndex`.  The source
function has no `return` statement, so a caller always observes `undefined`;
the second component models that returned value. -/
noncomputable def emitParticle (s : PSState) (x y z : ℝ) (ρ : EmitRand) :
    PSState × Option ℕ :=
  ({ s with slots := s.slots.set (emitIndex s ρ.slotR) (emitSlot s.options x y z ρ) },
   none)

/-- The oracle values consumed by `emitParticlesFromFingers`: `countR h f` is
the `MathUtils.randomInt` draw of hand `h`, finger `f`; `emitR h f i` are the
draws of the i-th `emitParticle` call of that finger. -/
structure EmitOracle where
  countR : ℕ → ℕ → ℝ
  emitR : ℕ → ℕ → ℕ → EmitRand

/-- The inner `for (let i = 0; i < emitCount; i++) this.emitParticle(tip.x, tip.y, 0)`
loop: `count` sequential emissions at `(x, y, 0)`. -/
noncomputable def emitTimes (x y : ℝ) (er : ℕ → EmitRand) (count : ℕ)
    (s : PSState) : PSState :=
  (List.range count).foldl (fun st i => (emitParticle st x y 0 (er i)).1) s

/-- The per-hand loop of `emitParticlesFromFingers`: for each tip, only when
its `fingerExtension` flag is true, draw `emitCount = randomInt(1, emissionRate)`
and emit that many particles at the tip's position with z = 0. -/
noncomputable def emitHand (ρ : EmitOracle) (h : ℕ) (hand : Hand) (s : PSState) : PSState :=
  hand.tips.enum.foldl
    (fun st ft =>
      if hand.fingerExtension.getD ft.1 false then
        emitTimes ft.2.x ft.2.y (ρ.emitR h ft.1)
          (randomInt 1 st.options.emissionRate (ρ.countR h ft.1)).toNat st
      else st) s

/-- `emitParticlesFromFingers()`: iterate all hands of the current snapshot
(the early return on an empty list coincides with the fold over `[]`). -/
noncomputable def emitParticlesFromFingers (s : PSState) (ρ : EmitOracle) : PSState :=
  s.fingerPositions.enum.foldl (fun st hh => emitHand ρ hh.1 hh.2 st) s

/-- The `frameCount % 30 === 0` status block of `update`: store the active
count measured by the per-slot loop into `this.particleCount`. -/
def statusTick (activeCount : ℕ) (frameCount : ℕ) (s : PSState) : PSState :=
  if frameCount % 30 = 0 then { s with particleCount := activeCount } else s

/-- The number of slots whose `active` flag is true (the `activeCount`
accumulated by the per-slot loop, which counts each slot's flag as it stood
when its iteration began, i.e. in the pre-pass state). -/
def countActive (s : PSState) : ℕ :=
  s.slots.countP (fun sl => sl.active)

/-- `update(deltaTime, frameCount)`: the per-slot physics/interaction pass,
then — on even frame counters only — emission from the fingers, then the
periodic status update.  `deltaTime` is accepted and ignored, as in the
source. -/
noncomputable def update (s : PSState) (deltaTime : ℝ) (frameCount : ℕ)
    (ρ : EmitOracle) : PSState :=
  let activeCount := countActive s
  let s1 := physicsPass s
  let s2 := if frameCount % 2 = 0 then emitParticlesFromFingers s1 ρ else s1
  statusTick activeCount frameCount s2

/-- `updateFromHandData(handData)`: `this.fingerPositions = handData.hands`. -/
def updateFromHandData (s : PSState) (hands : List Hand) : PSState :=
  { s with fingerPositions := hands }

/-- The per-slot effect of `reset()`: `active[i] = false` and the depth
coordinate moved to the offscreen sentinel; nothing else of the slot is
touched. -/
def resetSlot (sl : Slot) : Slot :=
  { sl with active := false, pos := ⟨sl.pos.x, sl.pos.y, -1000⟩ }

/-- `reset()`: deactivate every slot unconditionally. -/
def reset (s : PSState) : PSState :=
  { s with slots := s.slots.map resetSlot }

/-- A partial option record, one optional field per recognized key of
`updateProperties` (a JS object spread overrides exactly the keys present). -/
structure PropsUpdate where
  count : Option ℕ := none
  size : Option ℝ := none
  maxSpeed : Option ℝ := none
  lifetime : Option ℤ := none
  emissionRate : Option ℤ := none
  gravity : Option ℝ := none
  friction : Option ℝ := none
  bounceStrength : Option ℝ := none
  interactionRadius : Option ℝ := none
  colors : Option (List Vec3) := none

/-- `{ ...this.options, ...properties }`: fieldwise override. -/
def mergeOptions (o : Options) (p : PropsUpdate) : Options :=
  { count := p.count.getD o.count
    size := p.size.getD o.size
    maxSpeed := p.maxSpeed.getD o.maxSpeed
    lifetime := p.lifetime.getD o.lifetime
    emissionRate := p.emissionRate.getD o.emissionRate
    gravity := p.gravity.getD o.gravity
    friction := p.friction.getD o.friction
    bounceStrength := p.bounceStrength.getD o.bounceStrength
    interactionRadius := p.interactionRadius.getD o.interactionRadius
    colors := p.colors.getD o.colors }

/-- `updateProperties(properties)`: merge the supplied properties into
`this.options` (the `size` branch only touches the render material).  No
validation of any kind is performed and neither `maxParticles` nor any array
is touched. -/
def updateProperties (s : PSState) (p : PropsUpdate) : PSState :=
  { s with options := mergeOptions s.options p }

/-- The oracle values consumed by one iteration of `createExplosion`. -/
structure ExplosionRand where
  angleR : ℝ
  distR : ℝ
  emit : EmitRand

/-- One iteration of the `createExplosion` loop: emit at a random offset from
the center, then — when a color was supplied and the value returned by
`emitParticle` is defined — repaint the slot at the returned index. -/
noncomputable def explosionStep (x y z radius : ℝ) (color : Option Vec3)
    (ρ : ℕ → ExplosionRand) (st : PSState) (i : ℕ) : PSState :=
  let r := ρ i
  let angle := r.angleR * Real.pi * 2
  let distance := r.distR * radius
  let px := x + Real.cos angle * distance
  let py := y + Real.sin angle * distance
  let res := emitParticle st px py z r.emit
  match color, res.2 with
  | some c, some particle =>
      { res.1 with
        slots := res.1.slots.set particle
          { res.1.slots.getD particle slotDefault with color := c } }
  | _, _ => res.1

/-- `ParticleEffects.createExplosion(x, y, z, particleCount, radius, color)`:
`particleCount` iterations of `explosionStep`.  Since `emitParticle` returns
`undefined`, the repaint branch of each step is dead code in the source. -/
noncomputable def createExplosion (s : PSState) (x y z : ℝ) (particleCount : ℕ)
    (radius : ℝ) (color : Option Vec3) (ρ : ℕ → ExplosionRand) : PSState :=
  (List.range particleCount).foldl (explosionStep x y z radius color ρ) s

/-- The operations a client can run against one particle system, covering
every caller of `emitParticle` (direct emission, per-frame update including
finger emission, and the effects module). -/
inductive PoolOp where
  | emit (x y z : ℝ) (ρ : EmitRand)
  | frame (deltaTime : ℝ) (frameCount : ℕ) (ρ : EmitOracle)
  | doReset
  | setHands (hs : List Hand)
  | setProps (p : PropsUpdate)
  | explosion (x y z : ℝ) (n : ℕ) (radius : ℝ) (color : Option Vec3) (ρ : ℕ → ExplosionRand)

/-- Run one operation. -/
noncomputable def applyOp (s : PSState) : PoolOp → PSState
  | PoolOp.emit x y z ρ => (emitParticle s x y z ρ).1
  | PoolOp.frame dt n ρ => update s dt n ρ
  | PoolOp.doReset => reset s
  | PoolOp.setHands hs => updateFromHandData s hs
  | PoolOp.setProps p => updateProperties s p
  | PoolOp.explosion x y z n r c ρ => createExplosion s x y z n r c ρ

/-- Run a sequence of operations from a starting state. -/
noncomputable def applyOps (s : PSState) (ops : List PoolOp) : PSState :=
  ops.foldl applyOp s

/-! ## Basic lemmas -/

/-- A property of the fold state preserved by every step is preserved by the
whole fold. -/
theorem foldl_preserves {β : Type _} {α : Type _} (P : β → Prop) (f : β → α → β)
    (hf : ∀ st a, P st → P (f st a)) :
    ∀ (l : List α) (s : β), P s → P (l.foldl f s) := by
  intro l
  induction l with
  | nil => intro s hs; exact hs
  | cons a t ih => intro s hs; exact ih _ (hf _ _ hs)

/-- The JS `emitParticle` returns `undefined` on every call. -/
theorem emitParticle_snd (s : PSState) (x y z : ℝ) (ρ : EmitRand) :
    (emitParticle s x y z ρ).2 = none := rfl

/-- The slot written by an emission is active. -/
theorem emitSlot_active (opts : Options) (x y z : ℝ) (ρ : EmitRand) :
    (emitSlot opts x y z ρ).active = true := rfl

/-- Because `emitParticle` returns `undefined`, the repaint branch of
`explosionStep` never runs: each explosion iteration is exactly an emission. -/
theorem explosionStep_eq_emit (x y z radius : ℝ) (color : Option Vec3)
    (ρ : ℕ → ExplosionRand) (st : PSState) (i : ℕ) :
    explosionStep x y z radius color ρ st i =
      (emitParticle st (x + Real.cos ((ρ i).angleR * Real.pi * 2) * ((ρ i).distR * radius))
        (y + Real.sin ((ρ i).angleR * Real.pi * 2) * ((ρ i).distR * radius)) z (ρ i).emit).1 := by
  cases color <;> rfl

/-- The shape data of the pool that no operation may change: the length of
the slot arrays and the capacity fixed at construction. -/
def PoolShape (L M : ℕ) (s : PSState) : Prop :=
  s.slots.length = L ∧ s.maxParticles = M

theorem poolShape_emitParticle {L M : ℕ} {s : PSState} (h : PoolShape L M s)
    (x y z : ℝ) (ρ : EmitRand) : PoolShape L M (emitParticle s x y z ρ).1 := by
  obtain ⟨h1, h2⟩ := h
  exact ⟨by simp [emitParticle, h1], h2⟩

theorem poolShape_emitTimes {L M : ℕ} {s : PSState} (h : PoolShape L M s)
    (x y : ℝ) (er : ℕ → EmitRand) (count : ℕ) :
    PoolShape L M (emitTimes x y er count s) := by
  unfold emitTimes
  exact foldl_preserves (PoolShape L M) (fun st i => (emitParticle st x y 0 (er i)).1)
    (fun st i hst => poolShape_emitParticle hst x y 0 (er i)) _ _ h

theorem poolShape_emitHand {L M : ℕ} {s : PSState} (h : PoolShape L M s)
    (ρ : EmitOracle) (hidx : ℕ) (hand : Hand) :
    PoolShape L M (emitHand ρ hidx hand s) := by
  unfold emitHand
  refine foldl_preserves (PoolShape L M) _ (fun st ft hst => ?_) _ _ h
  dsimp only
  split
  · exact poolShape_emitTimes hst _ _ _ _
  · exact hst

theorem poolShape_emitFingers {L M : ℕ} {s : PSState} (h : PoolShape L M s)
    (ρ : EmitOracle) : PoolShape L M (emitParticlesFromFingers s ρ) := by
  unfold emitParticlesFromFingers
  exact foldl_preserves (PoolShape L M) _
    (fun st hh hst => poolShape_emitHand hst ρ hh.1 hh.2) _ _ h

theorem poolShape_physicsPass {L M : ℕ} {s : PSState} (h : PoolShape L M s) :
    PoolShape L M (physicsPass s) := by
  obtain ⟨h1, h2⟩ := h
  exact ⟨by simp [physicsPass, h1], h2⟩

theorem poolShape_statusTick {L M : ℕ} {s : PSState} (h : PoolShape L M s)
    (activeCount frameCount : ℕ) : PoolShape L M (statusTick activeCount frameCount s) := by
  obtain ⟨h1, h2⟩ := h
  unfold statusTick
  split <;> exact ⟨h1, h2⟩

theorem poolShape_update {L M : ℕ} {s : PSState} (h : PoolShape L M s)
    (dt : ℝ) (frameCount : ℕ) (ρ : EmitOracle) :
    PoolShape L M (update s dt frameCount ρ) := by
  unfold update
  refine poolShape_statusTick ?_ _ _
  split
  · exact poolShape_emitFingers (poolShape_physicsPass h) ρ
  · exact poolShape_physicsPass h

theorem poolShape_applyOp {L M : ℕ} {s : PSState} (h : PoolShape L M s)
    (op : PoolOp) : PoolShape L M (applyOp s op) := by
  obtain ⟨h1, h2⟩ := h
  cases op with
  | emit x y z ρ => exact poolShape_emitParticle ⟨h1, h2⟩ x y z ρ
  | frame dt n ρ => exact poolShape_update ⟨h1, h2⟩ dt n ρ
  | doReset =>
      refine ⟨?_, h2⟩
      show (reset s).slots.length = L
      simp [reset, h1]
  | setHands hs => exact ⟨h1, h2⟩
  | setProps p => exact ⟨h1, h2⟩
  | explosion x y z n r c ρ =>
      show PoolShape L M (createExplosion s x y z n r c ρ)
      unfold createExplosion
      refine foldl_preserves (PoolShape L M) _ (fun st i hst => ?_) _ _ ⟨h1, h2⟩
      rw [explosionStep_eq_emit]
      exact poolShape_emitParticle hst _ _ _ _

theorem poolShape_init (opts : Options) (colorR : ℕ → ℝ) :
    PoolShape opts.count opts.count (init opts colorR) := by
  constructor
  · simp [init]
  · rfl

/-! ## The sentinel invariant -/

/-- Every slot with `active = false` has its stored depth coordinate at the
offscreen sentinel `-1000`. -/
def SentinelInv (s : PSState) : Prop :=
  ∀ sl ∈ s.slots, sl.active = false → sl.pos.z = -1000

theorem statusTick_slots (activeCount frameCount : ℕ) (s : PSState) :
    (statusTick activeCount frameCount s).slots = s.slots := by
  unfold statusTick
  split <;> rfl

theorem sentinel_updateSlot (opts : Options) (hands : List Hand) (sl : Slot)
    (h : sl.active = false → sl.pos.z = -1000) :
    (updateSlot opts hands sl).active = false → (updateSlot opts hands sl).pos.z = -1000 := by
  unfold updateSlot
  split
  · exact h
  · dsimp only
    split
    · intro _; rfl
    · intro hact; exact absurd hact (by simp)

theorem sentinel_emitParticle {s : PSState} (h : SentinelInv s) (x y z : ℝ)
    (ρ : EmitRand) : SentinelInv (emitParticle s x y z ρ).1 := by
  intro sl hmem hact
  have hmem2 : sl ∈ s.slots.set (emitIndex s ρ.slotR) (emitSlot s.options x y z ρ) := hmem
  rcases List.mem_or_eq_of_mem_set hmem2 with hmem3 | rfl
  · exact h sl hmem3 hact
  · rw [emitSlot_active] at hact
    exact absurd hact (by decide)

theorem sentinel_emitTimes {s : PSState} (h : SentinelInv s) (x y : ℝ)
    (er : ℕ → EmitRand) (count : ℕ) : SentinelInv (emitTimes x y er count s) := by
  unfold emitTimes
  exact foldl_preserves SentinelInv (fun st i => (emitParticle st x y 0 (er i)).1)
    (fun st i hst => sentinel_emitParticle hst x y 0 (er i)) _ _ h

theorem sentinel_emitHand {s : PSState} (h : SentinelInv s) (ρ : EmitOracle)
    (hidx : ℕ) (hand : Hand) : SentinelInv (emitHand ρ hidx hand s) := by
  unfold emitHand
  refine foldl_preserves SentinelInv _ (fun st ft hst => ?_) _ _ h
  dsimp only
  split
  · exact sentinel_emitTimes hst _ _ _ _
  · exact hst

theorem sentinel_emitFingers {s : PSState} (h : SentinelInv s) (ρ : EmitOracle) :
    SentinelInv (emitParticlesFromFingers s ρ) := by
  unfold emitParticlesFromFingers
  exact foldl_preserves SentinelInv _
    (fun st hh hst => sentinel_emitHand hst ρ hh.1 hh.2) _ _ h

theorem sentinel_physicsPass {s : PSState} (h : SentinelInv s) :
    SentinelInv (physicsPass s) := by
  intro sl hmem hact
  have hmem2 : sl ∈ s.slots.map (updateSlot s.options s.fingerPositions) := hmem
  rcases List.mem_map.mp hmem2 with ⟨a, ha, rfl⟩
  exact sentinel_updateSlot _ _ a (h a ha) hact

theorem sentinel_statusTick {s : PSState} (h : SentinelInv s)
    (activeCount frameCount : ℕ) : SentinelInv (statusTick activeCount frameCount s) := by
  intro sl hmem hact
  rw [statusTick_slots] at hmem
  exact h sl hmem hact

theorem sentinel_update {s : PSState} (h : SentinelInv s) (dt : ℝ)
    (frameCount : ℕ) (ρ : EmitOracle) : SentinelInv (update s dt frameCount ρ) := by
  unfold update
  refine sentinel_statusTick ?_ _ _
  split
  · exact sentinel_emitFingers (sentinel_physicsPass h) ρ
  · exact sentinel_physicsPass h

theorem sentinel_reset (s : PSState) : SentinelInv (reset s) := by
  intro sl hmem _
  have hmem2 : sl ∈ s.slots.map resetSlot := hmem
  rcases List.mem_map.mp hmem2 with ⟨a, _, rfl⟩
  rfl

theorem sentinel_init (opts : Options) (colorR : ℕ → ℝ) :
    SentinelInv (init opts colorR) := by
  intro sl hmem _
  have hmem2 : sl ∈ (List.range opts.count).map
      (fun i => initSlot (getRandomColor opts (colorR i))) := hmem
  rcases List.mem_map.mp hmem2 with ⟨i, _, rfl⟩
  rfl

theorem sentinel_applyOp {s : PSState} (h : SentinelInv s) (op : PoolOp) :
    SentinelInv (applyOp s op) := by
  cases op with
  | emit x y z ρ => exact sentinel_emitParticle h x y z ρ
  | frame dt n ρ => exact sentinel_update h dt n ρ
  | doReset => exact sentinel_reset s
  | setHands hs => exact h
  | setProps p => exact h
  | explosion x y z n r c ρ =>
      show SentinelInv (createExplosion s x y z n r c ρ)
      unfold createExplosion
      refine foldl_preserves SentinelInv _ (fun st i hst => ?_) _ _ h
      rw [explosionStep_eq_emit]
      exact sentinel_emitParticle hst _ _ _ _

/-! ## Claim theorems: pool capacity and sentinel invariants -/

/-- Claim C1: for every sequence of `emitParticle` calls — from direct
emission, per-frame updates with finger emission, resets, hand-data updates,
property updates, or the effects module — the number of slots with
`active = true` never exceeds the pool capacity fixed at construction
(`maxParticles`), and no operation, including `updateProperties` with a new
`count` value, ever changes the capacity or the length of the particle
arrays after `init`. -/
theorem C1_pool_capacity_fixed (opts : Options) (colorR : ℕ → ℝ) (ops : List PoolOp) :
    countActive (applyOps (init opts colorR) ops) ≤ (applyOps (init opts colorR) ops).maxParticles
    ∧ (applyOps (init opts colorR) ops).maxParticles = opts.count
    ∧ (applyOps (init opts colorR) ops).slots.length = opts.count
    ∧ (∀ p : PropsUpdate,
        (updateProperties (applyOps (init opts colorR) ops) p).maxParticles = opts.count
        ∧ (updateProperties (applyOps (init opts colorR) ops) p).slots
            = (applyOps (init opts colorR) ops).slots) := by
  have hshape : PoolShape opts.count opts.count (applyOps (init opts colorR) ops) := by
    unfold applyOps
    exact foldl_preserves (PoolShape opts.count opts.count) applyOp
      (fun st op hst => poolShape_applyOp hst op) _ _ (poolShape_init opts colorR)
  obtain ⟨h1, h2⟩ := hshape
  refine ⟨?_, h2, h1, fun p => ⟨h2, rfl⟩⟩
  calc countActive (applyOps (init opts colorR) ops)
      ≤ (applyOps (init opts colorR) ops).slots.length := List.countP_le_length _
    _ = opts.count := h1
    _ = (applyOps (init opts colorR) ops).maxParticles := h2.symm

/-- Claim C5: after `init` and after every sequence of operations (per-frame
update including the interaction pass, emission, reset, hand-data updates,
property updates, effects), every slot with `active = false` stores the
offscreen sentinel depth `-1000`. -/
theorem C5_sentinel_invariant (opts : Options) (colorR : ℕ → ℝ) (ops : List PoolOp) :
    SentinelInv (applyOps (init opts colorR) ops) := by
  unfold applyOps
  exact foldl_preserves SentinelInv applyOp (fun st op hst => sentinel_applyOp hst op)
    _ _ (sentinel_init opts colorR)

/-! ## The per-slot physics step -/

/-- No tip of any hand lies within the interaction radius of the given
position (the "no finger contact" condition of the spec). -/
def noTipContact (opts : Options) (hands : List Hand) (pos : Vec3) : Prop :=
  ∀ hand ∈ hands, ∀ tip ∈ hand.tips, ¬ tipDistance tip pos < opts.interactionRadius

theorem interactTip_of_far (opts : Options) (hv : Option Vec2) (tip : Tip)
    (pos : Vec3) (st : Vec3 × Vec3 × ℤ)
    (h : ¬ tipDistance tip pos < opts.interactionRadius) :
    interactTip opts hv tip pos st = st := by
  unfold interactTip
  dsimp only
  rw [if_neg h]

theorem interactHand_of_far (opts : Options) (hand : Hand) (pos : Vec3)
    (st : Vec3 × Vec3 × ℤ)
    (h : ∀ tip ∈ hand.tips, ¬ tipDistance tip pos < opts.interactionRadius) :
    interactHand opts hand pos st = st := by
  unfold interactHand
  refine List.foldlRecOn (motive := fun b => b = st) hand.tips _ st rfl ?_
  intro b hb tip hmem
  rw [interactTip_of_far opts hand.velocity tip pos b (h tip hmem), hb]

theorem handleFingerInteraction_of_far (opts : Options) (hands : List Hand)
    (pos : Vec3) (st : Vec3 × Vec3 × ℤ) (h : noTipContact opts hands pos) :
    handleFingerInteraction opts hands pos st = st := by
  unfold handleFingerInteraction
  refine List.foldlRecOn (motive := fun b => b = st) hands _ st rfl ?_
  intro b hb hand hmem
  rw [interactHand_of_far opts hand pos b (h hand hmem), hb]

/-! ## Claim theorems: per-frame slot update -/

/-- Claim C2: one `update` step treats each slot independently; for an active
slot it first decrements the lifetime; if the decremented lifetime is ≤ 0 it
deactivates the slot and applies no gravity, friction, or velocity
integration to it; otherwise it adds gravity to `vel.y`, multiplies every
velocity component by the friction coefficient, adds the velocity to the
position, and (with no finger contact) leaves the lifetime at the decremented
value, so the lifetime strictly decreases by 1 per frame until it reaches ≤ 0,
when `active` becomes false that same frame; an inactive slot stays inactive
(until re-emitted). -/
theorem C2_lifetime_monotonic (opts : Options) (hands : List Hand) (sl : Slot)
    (s : PSState) (i : ℕ) :
    (physicsPass s).slots[i]? = (s.slots[i]?).map (updateSlot s.options s.fingerPositions)
    ∧ (sl.active = false → updateSlot opts hands sl = sl)
    ∧ (sl.active = true → sl.lifetime - 1 ≤ 0 →
        (updateSlot opts hands sl).active = false
        ∧ (updateSlot opts hands sl).lifetime = sl.lifetime - 1
        ∧ (updateSlot opts hands sl).vel = sl.vel
        ∧ (updateSlot opts hands sl).pos.x = sl.pos.x
        ∧ (updateSlot opts hands sl).pos.y = sl.pos.y)
    ∧ (sl.active = true → 0 < sl.lifetime - 1 →
        noTipContact opts hands ⟨sl.pos.x + sl.vel.x * opts.friction,
          sl.pos.y + (sl.vel.y + opts.gravity) * opts.friction,
          sl.pos.z + sl.vel.z * opts.friction⟩ →
        updateSlot opts hands sl =
          { pos := ⟨sl.pos.x + sl.vel.x * opts.friction,
                    sl.pos.y + (sl.vel.y + opts.gravity) * opts.friction,
                    sl.pos.z + sl.vel.z * opts.friction⟩
            vel := ⟨sl.vel.x * opts.friction, (sl.vel.y + opts.gravity) * opts.friction,
                    sl.vel.z * opts.friction⟩
            color := sl.color
            lifetime := sl.lifetime - 1
            active := true }) := by
  refine ⟨by simp [physicsPass], ?_, ?_, ?_⟩
  · intro ha
    unfold updateSlot
    rw [if_pos ha]
  · intro ha hl
    simp only [updateSlot, ha]
    norm_num [hl]
  · intro ha hl hnc
    have hl2 : ¬ sl.lifetime - 1 ≤ 0 := by omega
    simp only [updateSlot, ha]
    norm_num [hl2]
    rw [handleFingerInteraction_of_far opts hands _ _ hnc]
    exact ⟨rfl, rfl, rfl⟩

/-- Claim C10: when a slot is deactivated — by lifetime expiry inside
`update` or by `reset` — only its active flag and the depth coordinate of its
position change: x and y position, velocity, and color are untouched (and the
expiry path stores the decremented lifetime, while `reset` leaves every
slot's lifetime unchanged); `reset` is exactly the per-slot deactivation
applied to every slot. -/
theorem C10_deactivation_frame_effect (opts : Options) (hands : List Hand)
    (sl : Slot) (s : PSState) :
    (sl.active = true → sl.lifetime - 1 ≤ 0 →
        (updateSlot opts hands sl).pos.x = sl.pos.x
        ∧ (updateSlot opts hands sl).pos.y = sl.pos.y
        ∧ (updateSlot opts hands sl).pos.z = -1000
        ∧ (updateSlot opts hands sl).vel = sl.vel
        ∧ (updateSlot opts hands sl).color = sl.color
        ∧ (updateSlot opts hands sl).active = false
        ∧ (updateSlot opts hands sl).lifetime = sl.lifetime - 1)
    ∧ (resetSlot sl).pos.x = sl.pos.x
    ∧ (resetSlot sl).pos.y = sl.pos.y
    ∧ (resetSlot sl).pos.z = -1000
    ∧ (resetSlot sl).vel = sl.vel
    ∧ (resetSlot sl).color = sl.color
    ∧ (resetSlot sl).lifetime = sl.lifetime
    ∧ (resetSlot sl).active = false
    ∧ (reset s).slots = s.slots.map resetSlot := by
  refine ⟨?_, rfl, rfl, rfl, rfl, rfl, rfl, rfl, rfl⟩
  intro ha hl
  simp only [updateSlot, ha]
  norm_num [hl]

/-! ## Concrete values (from config.js) used by witnesses and counterexamples -/

/-- The `Config.particles` record of config.js, with the palette hex codes
converted to normalized RGB triples (hex `44` is `68/255 = 4/15`). -/
noncomputable def cfg : Options :=
  { count := 1000, size := 0.5, maxSpeed := 2, lifetime := 1500, emissionRate := 5,
    gravity := 0.03, friction := 0.98, bounceStrength := 0.85, interactionRadius := 10,
    colors := [⟨1, 4/15, 4/15⟩, ⟨4/15, 1, 4/15⟩, ⟨4/15, 4/15, 1⟩, ⟨1, 1, 4/15⟩, ⟨1, 4/15, 1⟩] }

/-- A live particle slot. -/
noncomputable def slotLive : Slot :=
  { pos := ⟨0, 0, 0⟩, vel := ⟨1, 1, 1⟩, color := ⟨0.5, 0.5, 0.5⟩, lifetime := 5,
    active := true }

/-- An active slot whose lifetime expires on the next frame. -/
noncomputable def slotExpiring : Slot :=
  { pos := ⟨2, 3, 4⟩, vel := ⟨1, 1, 1⟩, color := ⟨0.5, 0.5, 0.5⟩, lifetime := 1,
    active := true }

/-- An inactive slot. -/
noncomputable def slotIdle : Slot :=
  { pos := ⟨0, 0, -1000⟩, vel := ⟨0, 0, 0⟩, color := ⟨0.5, 0.5, 0.5⟩, lifetime := 0,
    active := false }

/-- Witness for claim C2 at concrete inputs: with no hands, a live slot with
lifetime 5 survives one frame with lifetime 4 and stays active, an expiring
slot (lifetime 1) is deactivated with its velocity untouched, and an
inactive slot is untouched. -/
theorem C2_lifetime_monotonic_witness :
    (updateSlot cfg [] slotLive).active = true
    ∧ (updateSlot cfg [] slotLive).lifetime = 4
    ∧ (updateSlot cfg [] slotExpiring).active = false
    ∧ (updateSlot cfg [] slotExpiring).vel = slotExpiring.vel
    ∧ updateSlot cfg [] slotIdle = slotIdle := by
  obtain ⟨-, -, -, h4⟩ := C2_lifetime_monotonic cfg [] slotLive (init cfg fun _ => 0) 0
  obtain ⟨-, -, h3, -⟩ := C2_lifetime_monotonic cfg [] slotExpiring (init cfg fun _ => 0) 0
  obtain ⟨-, h2, -, -⟩ := C2_lifetime_monotonic cfg [] slotIdle (init cfg fun _ => 0) 0
  have hlive := h4 rfl (by norm_num [slotLive])
    (by intro hand hm; exact absurd hm (List.not_mem_nil hand))
  have hexp := h3 rfl (by norm_num [slotExpiring])
  refine ⟨?_, ?_, hexp.1, hexp.2.2.1, h2 rfl⟩
  · rw [hlive]
  · rw [hlive]; norm_num [slotLive]

/-- Witness for claim C10 at concrete inputs: expiring a lifetime-1 slot in
`update` leaves its x, y position, velocity and color untouched while moving
the depth to the sentinel, and `resetSlot` leaves lifetime untouched. -/
theorem C10_deactivation_frame_effect_witness :
    (updateSlot cfg [] slotExpiring).pos.x = slotExpiring.pos.x
    ∧ (updateSlot cfg [] slotExpiring).pos.z = -1000
    ∧ (updateSlot cfg [] slotExpiring).vel = slotExpiring.vel
    ∧ (updateSlot cfg [] slotExpiring).color = slotExpiring.color
    ∧ (resetSlot slotLive).lifetime = slotLive.lifetime := by
  obtain ⟨hexp, -⟩ := C10_deactivation_frame_effect cfg [] slotExpiring (init cfg fun _ => 0)
  obtain ⟨-, -, -, -, -, -, hrl, -, -⟩ :=
    C10_deactivation_frame_effect cfg [] slotLive (init cfg fun _ => 0)
  have h := hexp rfl (by norm_num [slotExpiring])
  exact ⟨h.1, h.2.2.1, h.2.2.2.1, h.2.2.2.2.1, hrl⟩

/-! ## The interaction force field -/

/-- The x-velocity increment that one tip adds in the source's interaction
pass (zero when the tip is outside the interaction radius): direction from
the particle toward the tip. -/
noncomputable def tipDeltaX (opts : Options) (hv : Option Vec2) (tip : Tip) (pos : Vec3) : ℝ :=
  if tipDistance tip pos < opts.interactionRadius then
    ((tip.x - pos.x) / tipDistance tip pos)
        * (0.5 * (1 - tipDistance tip pos / opts.interactionRadius))
      + handVelX hv
  else 0

/-- The y-velocity increment that one tip adds in the source's interaction
pass. -/
noncomputable def tipDeltaY (opts : Options) (hv : Option Vec2) (tip : Tip) (pos : Vec3) : ℝ :=
  if tipDistance tip pos < opts.interactionRadius then
    ((tip.y - pos.y) / tipDistance tip pos)
        * (0.5 * (1 - tipDistance tip pos / opts.interactionRadius))
      + handVelY hv
  else 0

/-- Modelled from the spec wording of claim C3: the claimed per-tip
x-velocity contribution, `s` times the unit vector from the TIP to the
PARTICLE (i.e. direction `pos - tip`), plus 10% of the hand velocity.  This
is the spec's formula, to be compared against the source's `tipDeltaX`. -/
noncomputable def claimedTipDeltaX (opts : Options) (hv : Option Vec2) (tip : Tip) (pos : Vec3) : ℝ :=
  if tipDistance tip pos < opts.interactionRadius then
    ((pos.x - tip.x) / tipDistance tip pos)
        * (0.5 * (1 - tipDistance tip pos / opts.interactionRadius))
      + handVelX hv
  else 0

/-- One interaction step, written with the per-tip deltas: the velocity gains
the delta on x and y only, the red channel is pushed toward 1 (clamped) when
the tip is in radius, and the lifetime gains 5 when the tip is in radius. -/
theorem interactTip_eq (opts : Options) (hv : Option Vec2) (tip : Tip)
    (pos : Vec3) (st : Vec3 × Vec3 × ℤ) :
    interactTip opts hv tip pos st =
      (⟨st.1.x + tipDeltaX opts hv tip pos, st.1.y + tipDeltaY opts hv tip pos, st.1.z⟩,
       (if tipDistance tip pos < opts.interactionRadius then
          ⟨min 1 (st.2.1.x + 0.05), st.2.1.y, st.2.1.z⟩
        else st.2.1),
       st.2.2 + (if tipDistance tip pos < opts.interactionRadius then 5 else 0)) := by
  unfold interactTip tipDeltaX tipDeltaY
  dsimp only
  by_cases h : tipDistance tip pos < opts.interactionRadius
  · simp [h]
  · simp [h]

/-- Accumulation over a list of tips: after folding the per-tip interaction,
the x and y velocities have gained the sum of the per-tip deltas, the z
velocity is untouched, the lifetime has gained 5 per in-radius tip, and the
green and blue channels are untouched. -/
theorem interactTips_accumulate (opts : Options) (hv : Option Vec2) (pos : Vec3) :
    ∀ (tips : List Tip) (st : Vec3 × Vec3 × ℤ),
      ((tips.foldl (fun st tip => interactTip opts hv tip pos st) st).1.x
          = st.1.x + (tips.map (fun tip => tipDeltaX opts hv tip pos)).sum)
      ∧ ((tips.foldl (fun st tip => interactTip opts hv tip pos st) st).1.y
          = st.1.y + (tips.map (fun tip => tipDeltaY opts hv tip pos)).sum)
      ∧ ((tips.foldl (fun st tip => interactTip opts hv tip pos st) st).1.z = st.1.z)
      ∧ ((tips.foldl (fun st tip => interactTip opts hv tip pos st) st).2.2
          = st.2.2 + 5 * (tips.countP
              (fun tip => decide (tipDistance tip pos < opts.interactionRadius)) : ℤ))
      ∧ ((tips.foldl (fun st tip => interactTip opts hv tip pos st) st).2.1.y = st.2.1.y)
      ∧ ((tips.foldl (fun st tip => interactTip opts hv tip pos st) st).2.1.z = st.2.1.z) := by
  intro tips
  induction tips with
  | nil => intro st; simp
  | cons tip rest ih =>
      intro st
      obtain ⟨ihx, ihy, ihz, ihlt, ihcy, ihcz⟩ := ih (interactTip opts hv tip pos st)
      rw [List.foldl_cons]
      refine ⟨?_, ?_, ?_, ?_, ?_, ?_⟩
      · rw [ihx, interactTip_eq]
        dsimp only
        rw [List.map_cons, List.sum_cons]
        ring
      · rw [ihy, interactTip_eq]
        dsimp only
        rw [List.map_cons, List.sum_cons]
        ring
      · rw [ihz, interactTip_eq]
      · rw [ihlt, interactTip_eq]
        dsimp only
        rw [List.countP_cons]
        by_cases h : tipDistance tip pos < opts.interactionRadius
        · simp [h]; ring
        · simp [h]
      · rw [ihcy, interactTip_eq]
        dsimp only
        by_cases h : tipDistance tip pos < opts.interactionRadius
        · simp [h]
        · simp [h]
      · rw [ihcz, interactTip_eq]
        dsimp only
        by_cases h : tipDistance tip pos < opts.interactionRadius
        · simp [h]
        · simp [h]

/-- Accumulation over the whole hand list of `handleFingerInteraction`. -/
theorem handleFingerInteraction_accumulate (opts : Options) (pos : Vec3) :
    ∀ (hands : List Hand) (st : Vec3 × Vec3 × ℤ),
      ((handleFingerInteraction opts hands pos st).1.x
          = st.1.x + (hands.map (fun hand =>
              (hand.tips.map (fun tip => tipDeltaX opts hand.velocity tip pos)).sum)).sum)
      ∧ ((handleFingerInteraction opts hands pos st).1.y
          = st.1.y + (hands.map (fun hand =>
              (hand.tips.map (fun tip => tipDeltaY opts hand.velocity tip pos)).sum)).sum)
      ∧ ((handleFingerInteraction opts hands pos st).1.z = st.1.z)
      ∧ ((handleFingerInteraction opts hands pos st).2.2
          = st.2.2 + 5 * ((hands.map (fun hand => (hand.tips.countP
              (fun tip => decide (tipDistance tip pos < opts.interactionRadius)) : ℤ))).sum)) := by
  intro hands
  induction hands with
  | nil => intro st; simp [handleFingerInteraction]
  | cons hand rest ih =>
      intro st
      obtain ⟨ihx, ihy, ihz, ihlt⟩ := ih (interactHand opts hand pos st)
      obtain ⟨hx, hy, hz, hlt, -, -⟩ :=
        interactTips_accumulate opts hand.velocity pos hand.tips st
      have hfold : handleFingerInteraction opts (hand :: rest) pos st
          = handleFingerInteraction opts rest pos (interactHand opts hand pos st) := rfl
      refine ⟨?_, ?_, ?_, ?_⟩
      · rw [hfold, ihx, List.map_cons, List.sum_cons]
        have : (interactHand opts hand pos st).1.x
            = st.1.x + (hand.tips.map (fun tip => tipDeltaX opts hand.velocity tip pos)).sum := hx
        rw [this]; ring
      · rw [hfold, ihy, List.map_cons, List.sum_cons]
        have : (interactHand opts hand pos st).1.y
            = st.1.y + (hand.tips.map (fun tip => tipDeltaY opts hand.velocity tip pos)).sum := hy
        rw [this]; ring
      · rw [hfold, ihz]
        exact hz
      · rw [hfold, ihlt, List.map_cons, List.sum_cons]
        have : (interactHand opts hand pos st).2.2
            = st.2.2 + 5 * (hand.tips.countP
                (fun tip => decide (tipDistance tip pos < opts.interactionRadius)) : ℤ) := hlt
        rw [this]; ring

/-- A tip at planar position (1,0). -/
noncomputable def tip3 : Tip := ⟨1, 0, 0⟩

/-- A particle position at the origin. -/
noncomputable def pos3 : Vec3 := ⟨0, 0, 0⟩

/-- A per-slot interaction state: zero velocity, mid-gray color, lifetime 10. -/
noncomputable def st3 : Vec3 × Vec3 × ℤ := (⟨0, 0, 0⟩, ⟨0.5, 0.5, 0.5⟩, 10)

theorem tipDistance_tip3 : tipDistance tip3 pos3 = 1 := by
  have h : (tip3.x - pos3.x) * (tip3.x - pos3.x) + (tip3.y - pos3.y) * (tip3.y - pos3.y)
      = 1 := by norm_num [tip3, pos3]
  unfold tipDistance
  rw [h, Real.sqrt_one]

/-- Claim C3 (amended): for every contributing tip (planar distance
`d < interactionRadius`), the interaction adds to the particle's velocity the
vector `s * (unit vector from the PARTICLE to the TIP)` with
`s = 0.5 * (1 - d/interactionRadius)`, plus 10% of the hand's estimated
velocity, on x and y only (z velocity untouched); it pushes the red channel
toward 1 clamped at 1; it adds 5 to the lifetime; and contributions of
multiple tips and hands in one frame accumulate additively. -/
theorem C3_interaction_force (opts : Options) (hv : Option Vec2) (tip : Tip)
    (pos : Vec3) (st : Vec3 × Vec3 × ℤ) (hands : List Hand)
    (hd : tipDistance tip pos < opts.interactionRadius) :
    interactTip opts hv tip pos st =
      (⟨st.1.x + (((tip.x - pos.x) / tipDistance tip pos)
            * (0.5 * (1 - tipDistance tip pos / opts.interactionRadius)) + handVelX hv),
        st.1.y + (((tip.y - pos.y) / tipDistance tip pos)
            * (0.5 * (1 - tipDistance tip pos / opts.interactionRadius)) + handVelY hv),
        st.1.z⟩,
       ⟨min 1 (st.2.1.x + 0.05), st.2.1.y, st.2.1.z⟩,
       st.2.2 + 5)
    ∧ ((handleFingerInteraction opts hands pos st).1.x
        = st.1.x + (hands.map (fun hand =>
            (hand.tips.map (fun t => tipDeltaX opts hand.velocity t pos)).sum)).sum)
    ∧ ((handleFingerInteraction opts hands pos st).1.y
        = st.1.y + (hands.map (fun hand =>
            (hand.tips.map (fun t => tipDeltaY opts hand.velocity t pos)).sum)).sum)
    ∧ ((handleFingerInteraction opts hands pos st).1.z = st.1.z)
    ∧ ((handleFingerInteraction opts hands pos st).2.2
        = st.2.2 + 5 * ((hands.map (fun hand => (hand.tips.countP
            (fun t => decide (tipDistance t pos < opts.interactionRadius)) : ℤ))).sum)) := by
  obtain ⟨hx, hy, hz, hlt⟩ := handleFingerInteraction_accumulate opts pos hands st
  refine ⟨?_, hx, hy, hz, hlt⟩
  rw [interactTip_eq]
  unfold tipDeltaX tipDeltaY
  rw [if_pos hd, if_pos hd, if_pos hd, if_pos hd]

/-- Witness for claim C3 at concrete inputs: tip (1,0), particle at the
origin, distance 1, radius 10, no hand velocity — the x velocity gains
0.45 = 0.5*(1 - 1/10) toward the tip and the lifetime goes from 10 to 15. -/
theorem C3_interaction_force_witness :
    tipDistance tip3 pos3 < cfg.interactionRadius
    ∧ (interactTip cfg none tip3 pos3 st3).1.x = 0.45
    ∧ (interactTip cfg none tip3 pos3 st3).2.2 = 15 := by
  have hd : tipDistance tip3 pos3 < cfg.interactionRadius := by
    rw [tipDistance_tip3]; norm_num [cfg]
  obtain ⟨h1, -⟩ := C3_interaction_force cfg none tip3 pos3 st3 [] hd
  refine ⟨hd, ?_, ?_⟩
  · rw [h1]
    dsimp only
    rw [tipDistance_tip3]
    norm_num [tip3, pos3, st3, cfg, handVelX]
  · rw [h1]
    norm_num [st3]

/-- Claim C3 counterexample: with tip (1,0), particle at the origin
(distance 1, radius 10, no hand velocity), the source adds +0.45 to the x
velocity — toward the tip — whereas the claimed contribution
`s * (unit vector from tip to particle)` would be −0.45: the claimed
direction is reversed. -/
theorem C3_counterexample :
    (interactTip cfg none tip3 pos3 st3).1.x = 0.45
    ∧ claimedTipDeltaX cfg none tip3 pos3 = -0.45
    ∧ (interactTip cfg none tip3 pos3 st3).1.x
        ≠ st3.1.x + claimedTipDeltaX cfg none tip3 pos3 := by
  have hd : tipDistance tip3 pos3 < cfg.interactionRadius := by
    rw [tipDistance_tip3]; norm_num [cfg]
  have h1 : (interactTip cfg none tip3 pos3 st3).1.x = 0.45 := by
    rw [interactTip_eq]
    dsimp only
    unfold tipDeltaX
    rw [if_pos hd, tipDistance_tip3]
    norm_num [tip3, pos3, st3, cfg, handVelX]
  have h2 : claimedTipDeltaX cfg none tip3 pos3 = -0.45 := by
    unfold claimedTipDeltaX
    rw [if_pos hd, tipDistance_tip3]
    norm_num [tip3, pos3, cfg, handVelX]
  refine ⟨h1, h2, ?_⟩
  rw [h1, h2]
  norm_num [st3]

/-- A hand whose single tip has the extension flag false. -/
noncomputable def handRetracted : Hand :=
  { tips := [tip3], fingerExtension := [false], velocity := none }

/-- Claim C6 (amended): the interaction pass never consults the extension
flags — replacing every hand's `fingerExtension` by arbitrary flags yields
the same interaction result — so a tip with extension flag false contributes
to the force field exactly like an extended one (the flag gates emission
only). -/
theorem C6_interaction_ignores_extension (opts : Options) (pos : Vec3)
    (st : Vec3 × Vec3 × ℤ) (hand : Hand) (flags : List Bool) (hands : List Hand) :
    interactHand opts { hand with fingerExtension := flags } pos st
      = interactHand opts hand pos st
    ∧ handleFingerInteraction opts
        (hands.map (fun h => { h with fingerExtension := flags })) pos st
      = handleFingerInteraction opts hands pos st := by
  constructor
  · rfl
  · unfold handleFingerInteraction
    rw [List.foldl_map]
    have hfun : (fun (x : Vec3 × Vec3 × ℤ) (y : Hand) =>
          interactHand opts (Hand.mk y.tips flags y.velocity) pos x)
        = fun (x : Vec3 × Vec3 × ℤ) (y : Hand) => interactHand opts y pos x := by
      funext x y
      rfl
    rw [hfun]

/-- Claim C6 counterexample: a hand whose only tip has extension flag false
still perturbs a particle within the interaction radius — the x velocity and
the lifetime both change. -/
theorem C6_counterexample :
    handRetracted.fingerExtension = [false]
    ∧ (handleFingerInteraction cfg [handRetracted] pos3 st3).1.x ≠ st3.1.x
    ∧ (handleFingerInteraction cfg [handRetracted] pos3 st3).2.2 ≠ st3.2.2 := by
  have hd : tipDistance tip3 pos3 < cfg.interactionRadius := by
    rw [tipDistance_tip3]; norm_num [cfg]
  have hfold : handleFingerInteraction cfg [handRetracted] pos3 st3
      = interactTip cfg none tip3 pos3 st3 := rfl
  rw [hfold, interactTip_eq]
  dsimp only
  unfold tipDeltaX
  rw [if_pos hd, if_pos hd, tipDistance_tip3]
  refine ⟨rfl, ?_, ?_⟩
  · norm_num [tip3, pos3, st3, cfg, handVelX]
  · norm_num [st3]

/-- The tip whose planar position coincides with `pos3`. -/
noncomputable def tip0 : Tip := ⟨0, 0, 0⟩

/-- Claim C7 (amended): the interaction has no epsilon guard on the distance.
When the planar distance is strictly positive and within the radius, the
normalization divides by the nonzero distance and the velocity update is the
well-defined value below; but a particle exactly at a tip's planar position
still enters the branch with distance exactly 0 and the normalization
divides by zero (NaN in JS) — exhibited by the counterexample theorem. -/
theorem C7_distance_guard (opts : Options) (hv : Option Vec2) (tip : Tip)
    (pos : Vec3) (st : Vec3 × Vec3 × ℤ)
    (h0 : 0 < tipDistance tip pos) (hr : tipDistance tip pos < opts.interactionRadius) :
    tipDistance tip pos ≠ 0
    ∧ interactTip opts hv tip pos st =
      (⟨st.1.x + (((tip.x - pos.x) / tipDistance tip pos)
            * (0.5 * (1 - tipDistance tip pos / opts.interactionRadius)) + handVelX hv),
        st.1.y + (((tip.y - pos.y) / tipDistance tip pos)
            * (0.5 * (1 - tipDistance tip pos / opts.interactionRadius)) + handVelY hv),
        st.1.z⟩,
       ⟨min 1 (st.2.1.x + 0.05), st.2.1.y, st.2.1.z⟩,
       st.2.2 + 5) := by
  refine ⟨ne_of_gt h0, ?_⟩
  rw [interactTip_eq]
  unfold tipDeltaX tipDeltaY
  rw [if_pos hr, if_pos hr, if_pos hr, if_pos hr]

/-- Witness for claim C7 at concrete inputs: tip (1,0), particle at the
origin — distance 1 is nonzero and the update is well defined (lifetime goes
from 10 to 15). -/
theorem C7_distance_guard_witness :
    tipDistance tip3 pos3 ≠ 0 ∧ (interactTip cfg none tip3 pos3 st3).2.2 = 15 := by
  obtain ⟨h1, h2⟩ := C7_distance_guard cfg none tip3 pos3 st3
    (by rw [tipDistance_tip3]; norm_num) (by rw [tipDistance_tip3]; norm_num [cfg])
  refine ⟨h1, ?_⟩
  rw [h2]
  norm_num [st3]

/-- Claim C7 counterexample: with the particle exactly at the tip's planar
position the computed distance is exactly 0, yet the interaction branch is
still entered (0 < interactionRadius = 10) and applies its effects (the
lifetime gains 5), so the source divides `dx` and `dy` by zero there
(`0/0` is NaN in JS): no epsilon guard exists. -/
theorem C7_counterexample :
    tipDistance tip0 pos3 = 0
    ∧ tipDistance tip0 pos3 < cfg.interactionRadius
    ∧ (interactTip cfg none tip0 pos3 st3).2.2 = st3.2.2 + 5 := by
  have h : tipDistance tip0 pos3 = 0 := by
    have harg : (tip0.x - pos3.x) * (tip0.x - pos3.x)
        + (tip0.y - pos3.y) * (tip0.y - pos3.y) = 0 := by norm_num [tip0, pos3]
    unfold tipDistance
    rw [harg, Real.sqrt_zero]
  have hd : tipDistance tip0 pos3 < cfg.interactionRadius := by
    rw [h]; norm_num [cfg]
  refine ⟨h, hd, ?_⟩
  rw [interactTip_eq]
  dsimp only
  rw [if_pos hd]

/-! ## The emit contract -/

/-- On a freshly initialized pool with at least one slot, the linear scan of
`emitParticle` finds slot 0. -/
theorem firstInactive_init (opts : Options) (colorR : ℕ → ℝ) (h : 0 < opts.count) :
    firstInactive (init opts colorR).slots = some 0 := by
  obtain ⟨n, hn⟩ : ∃ n, opts.count = n + 1 := ⟨opts.count - 1, by omega⟩
  show List.findIdx? _ ((List.range opts.count).map _) = some 0
  rw [hn, List.range_succ_eq_map]
  simp [List.findIdx?_cons, initSlot]

/-- The default configuration with a small pool of capacity 4. -/
noncomputable def cfg4 : Options := { cfg with count := 4 }

/-- A fresh particle system of capacity 4. -/
noncomputable def sFresh : PSState := init cfg4 (fun _ => 0)

/-- Oracle values for one emit call. -/
noncomputable def rand0 : EmitRand :=
  { slotR := 0, angleR := 0, speedR := 0, zR := 0, colorR := 0 }

/-- Claim C4, the code evaluated at the failing input: on a fresh pool of
capacity 4, `emitParticle(5,5,0)` selects slot 0 — the first inactive slot
of the linear scan — and activates it at position (5,5,0) with the
configured lifetime, but returns `undefined` (`none`), not the selected slot
index: the source function has no `return` statement.  Consequently the
repaint branch of the effects module guarded by `particle !== undefined`
never runs: `createExplosion` with a requested color behaves exactly as
without one. -/
theorem C4_emit_returns_undefined :
    firstInactive sFresh.slots = some 0
    ∧ emitIndex sFresh rand0.slotR = 0
    ∧ ((emitParticle sFresh 5 5 0 rand0).1.slots.getD 0 slotDefault).active = true
    ∧ ((emitParticle sFresh 5 5 0 rand0).1.slots.getD 0 slotDefault).pos.x = 5
    ∧ ((emitParticle sFresh 5 5 0 rand0).1.slots.getD 0 slotDefault).lifetime = 1500
    ∧ (emitParticle sFresh 5 5 0 rand0).2 = none
    ∧ (∀ (s : PSState) (x y z : ℝ) (pc : ℕ) (radius : ℝ) (c : Vec3)
          (ρ : ℕ → ExplosionRand),
        createExplosion s x y z pc radius (some c) ρ
          = createExplosion s x y z pc radius none ρ) := by
  have hfi : firstInactive sFresh.slots = some 0 :=
    firstInactive_init cfg4 (fun _ => 0) (by norm_num [cfg4])
  have hidx : emitIndex sFresh rand0.slotR = 0 := by
    unfold emitIndex
    rw [hfi]
  have hlen : 0 < sFresh.slots.length := by
    have h4 : sFresh.slots.length = cfg4.count := by simp [sFresh, init]
    rw [h4]
    norm_num [cfg4]
  have hget : (emitParticle sFresh 5 5 0 rand0).1.slots.getD 0 slotDefault
      = emitSlot sFresh.options 5 5 0 rand0 := by
    show (sFresh.slots.set (emitIndex sFresh rand0.slotR)
        (emitSlot sFresh.options 5 5 0 rand0)).getD 0 slotDefault = _
    rw [hidx, List.getD_eq_getElem?_getD, List.getElem?_set_self hlen]
    rfl
  refine ⟨hfi, hidx, ?_, ?_, ?_, rfl, ?_⟩
  · rw [hget]; rfl
  · rw [hget]; rfl
  · rw [hget]; rfl
  · intro s x y z pc radius c ρ
    unfold createExplosion
    generalize List.range pc = l
    induction l generalizing s with
    | nil => rfl
    | cons a t ih =>
        rw [List.foldl_cons, List.foldl_cons, explosionStep_eq_emit, explosionStep_eq_emit]
        exact ih _

/-! ## Emission gating -/

/-- Claim C8: emission runs only on frames with an even frame counter (odd
frames perform the physics pass and status tick only); on an even frame the
update is exactly the physics pass followed by finger emission; the emission
count `randomInt(1, emissionRate)` lies in `[1, emissionRate]` whenever the
`Math.random()` draw lies in `[0,1)` and the rate is ≥ 1; a hand whose
extension flags are all false emits nothing; a hand with a single extended
tip emits exactly `randomInt(1, emissionRate)` particles at the tip's
position with z = 0, via `emitCount` successive `emitParticle` calls. -/
theorem C8_emission_gating (s : PSState) (dt : ℝ) (frameCount : ℕ) (ρ : EmitOracle)
    (hand : Hand) (hidx : ℕ) (tip : Tip) (m : ℤ) (r : ℝ)
    (hm : 1 ≤ m) (h0 : 0 ≤ r) (h1 : r < 1) :
    (frameCount % 2 ≠ 0 →
        update s dt frameCount ρ = statusTick (countActive s) frameCount (physicsPass s))
    ∧ (frameCount % 2 = 0 →
        update s dt frameCount ρ
          = statusTick (countActive s) frameCount
              (emitParticlesFromFingers (physicsPass s) ρ))
    ∧ (1 ≤ randomInt 1 m r ∧ randomInt 1 m r ≤ m)
    ∧ ((∀ f, hand.fingerExtension.getD f false = false) →
        ∀ st : PSState, emitHand ρ hidx hand st = st)
    ∧ (hand.tips = [tip] → hand.fingerExtension = [true] →
        ∀ st : PSState, emitHand ρ hidx hand st
          = emitTimes tip.x tip.y (ρ.emitR hidx 0)
              (randomInt 1 st.options.emissionRate (ρ.countR hidx 0)).toNat st)
    ∧ (∀ (x y : ℝ) (er : ℕ → EmitRand) (st : PSState) (n : ℕ),
        emitTimes x y er 0 st = st
        ∧ emitTimes x y er (n + 1) st
            = (emitParticle (emitTimes x y er n st) x y 0 (er n)).1) := by
  have hmr : (1:ℝ) ≤ (m:ℝ) := by exact_mod_cast hm
  refine ⟨?_, ?_, ⟨?_, ?_⟩, ?_, ?_, ?_⟩
  · intro hodd
    unfold update
    dsimp only
    rw [if_neg hodd]
  · intro heven
    unfold update
    dsimp only
    rw [if_pos heven]
  · unfold randomInt
    push_cast
    have hfl : (0:ℤ) ≤ Int.floor (r * ((m:ℝ) - 1 + 1)) := by
      apply Int.floor_nonneg.mpr
      apply mul_nonneg h0
      linarith
    omega
  · unfold randomInt
    push_cast
    have hlt : Int.floor (r * ((m:ℝ) - 1 + 1)) < m := by
      apply Int.floor_lt.mpr
      have harg : r * ((m:ℝ) - 1 + 1) = r * m := by ring
      rw [harg]
      calc r * (m:ℝ) < 1 * m := by
            apply mul_lt_mul_of_pos_right h1
            linarith
        _ = m := one_mul _
    omega
  · intro hflags st
    unfold emitHand
    refine List.foldlRecOn (motive := fun b => b = st) hand.tips.enum _ st rfl ?_
    intro b hb ft hmem
    dsimp only
    rw [hflags ft.1]
    simp [hb]
  · intro htips hflags st
    unfold emitHand
    rw [htips, hflags]
    simp [List.enum_cons]
  · intro x y er st n
    constructor
    · rfl
    · unfold emitTimes
      rw [List.range_succ, List.foldl_append, List.foldl_cons, List.foldl_nil]

/-- The emission oracle of the C8 witness. -/
noncomputable def oracle0 : EmitOracle :=
  { countR := fun _ _ => 3/10, emitR := fun _ _ _ => rand0 }

/-- A hand with no tips. -/
noncomputable def handNoTips : Hand :=
  { tips := [], fingerExtension := [], velocity := none }

/-- Witness for claim C8 at concrete inputs: `randomInt(1, 5)` at draw 3/10
is within [1, 5]; frame 1 (odd) performs no emission while frame 2 (even)
runs the emission pass after the physics pass. -/
theorem C8_emission_gating_witness :
    (1 ≤ randomInt 1 5 (3/10) ∧ randomInt 1 5 (3/10) ≤ 5)
    ∧ update sFresh 0 1 oracle0 = statusTick (countActive sFresh) 1 (physicsPass sFresh)
    ∧ update sFresh 0 2 oracle0
        = statusTick (countActive sFresh) 2
            (emitParticlesFromFingers (physicsPass sFresh) oracle0) := by
  obtain ⟨hodd, -, hrange, -, -, -⟩ := C8_emission_gating sFresh 0 1 oracle0
    handNoTips 0 tip3 5 (3/10) (by norm_num) (by norm_num) (by norm_num)
  obtain ⟨-, heven, -, -, -, -⟩ := C8_emission_gating sFresh 0 2 oracle0
    handNoTips 0 tip3 5 (3/10) (by norm_num) (by norm_num) (by norm_num)
  exact ⟨hrange, hodd (by norm_num), heven (by norm_num)⟩

/-! ## Configuration apply -/

/-- A degenerate property update: friction 2 (outside `(0,1]`), negative
interaction radius, empty palette. -/
noncomputable def propsBad : PropsUpdate :=
  { friction := some 2, interactionRadius := some (-1), colors := some [] }

/-- The particle system built from the default configuration. -/
noncomputable def sCfg : PSState := init cfg (fun _ => 0)

/-- Claim C9 (amended): `updateProperties` performs no validation at
configuration-apply time: every supplied property — including degenerate
values such as friction outside `(0,1]`, a non-positive interaction radius,
or an empty palette — is merged into the stored options verbatim, fieldwise;
only the options change (slots and capacity are untouched). -/
theorem C9_no_validation (s : PSState) (p : PropsUpdate) :
    (updateProperties s p).options = mergeOptions s.options p
    ∧ (updateProperties s p).options.friction = p.friction.getD s.options.friction
    ∧ (updateProperties s p).options.interactionRadius
        = p.interactionRadius.getD s.options.interactionRadius
    ∧ (updateProperties s p).options.colors = p.colors.getD s.options.colors
    ∧ (updateProperties s p).slots = s.slots
    ∧ (updateProperties s p).maxParticles = s.maxParticles :=
  ⟨rfl, rfl, rfl, rfl, rfl, rfl⟩

/-- Claim C9 counterexample: applying friction = 2, interactionRadius = −1
and an empty palette is not rejected and does not leave the stored
parameters unchanged: all three degenerate values are stored verbatim, and
the stored friction leaves `(0,1]`. -/
theorem C9_counterexample :
    (updateProperties sCfg propsBad).options.friction = 2
    ∧ sCfg.options.friction = 0.98
    ∧ ¬ (updateProperties sCfg propsBad).options.friction ≤ 1
    ∧ (updateProperties sCfg propsBad).options.interactionRadius = -1
    ∧ (updateProperties sCfg propsBad).options.colors = [] := by
  refine ⟨rfl, rfl, ?_, rfl, rfl⟩
  show ¬ ((2:ℝ) ≤ 1)
  norm_num

end HandParticles
